import Mathlib

/-
  Verification of the dingus-aid command-line assistant (Go).

  The repository contains two variants of the tool:
  - src/dingus-aid.go ("V1"): an in-memory history of Entry values with a
    hard-coded bound of 5, evicted by a loop in main, and a context built
    inside getCommandSuggestion from the last 5 entries, truncated to the
    last 100 words.
  - the Go file embedded in src/unnamed/part_000 ("V2"): a CommandHistory
    struct with MaxSize and MaxWords fields, an Add method that trims the
    output to the trailing MaxWords words and keeps the last MaxSize
    entries, and a GetContext method rendering the retained entries.

  The shallow embedding below translates the pure logic of both variants.
  I/O boundaries (the HTTP transport, the JSON text decoder, the file
  system, the shell) are represented by explicit state values handed to
  the embedded functions: an APIResponse carries the status line, the raw
  body and the result of decoding the body into a JSON value; the config
  file is a ConfigFileState; the shell is a ShellResult.
-/

namespace DingusAid

/-! ### Definitions: shallow embedding of the source -/

/-- Whitespace predicate used by the Go standard library string helpers
(strings.Fields, strings.TrimSpace).  Covers the Latin-1 range of
unicode.IsSpace; the wider Unicode space classes are not produced by the
ASCII command text this tool handles. -/
def goIsSpace (c : Char) : Bool :=
  c = ' ' || c = '\t' || c = '\n' || c = '\r' || c = '\x0b' || c = '\x0c' ||
  c = Char.ofNat 0x85 || c = Char.ofNat 0xa0

/-- Accumulator-based splitter behind goFields.  The first argument holds the
reversed characters of the word currently being read. -/
def fieldsAux : List Char → List Char → List (List Char)
  | acc, [] => if acc = [] then [] else [acc.reverse]
  | acc, c :: cs =>
    if goIsSpace c then
      if acc = [] then fieldsAux [] cs else acc.reverse :: fieldsAux [] cs
    else fieldsAux (c :: acc) cs

/-- strings.Fields: split around runs of whitespace, dropping empty words. -/
def goFields (s : String) : List String :=
  (fieldsAux [] s.data).map String.mk

/-- strings.Join: concatenate the words with the separator between them. -/
def goJoin (sep : String) : List String → String
  | [] => ""
  | [w] => w
  | w :: ws => w ++ sep ++ goJoin sep ws

/-- strings.TrimSpace: remove leading and trailing whitespace. -/
def goTrimSpace (s : String) : String :=
  String.mk (((s.data.dropWhile goIsSpace).reverse.dropWhile goIsSpace).reverse)

/-- strings.ToLower restricted to ASCII case mapping; the confirmation
inputs this tool compares against are ASCII. -/
def goToLower (s : String) : String :=
  String.mk (s.data.map Char.toLower)

/-- The trailing n elements of a list (all of it when it is shorter).
Go slice expression l[len(l)-n:] as used for eviction and word trimming. -/
def lastN (n : Nat) (l : List α) : List α :=
  l.drop (l.length - n)

/-- One retained history entry: the executed command and its captured
combined output. -/
structure HistoryEntry where
  command : String
  output : String
deriving DecidableEq

/-- In-memory command history tracker.  The global instance in the source
uses maxSize 8 and maxWords 160. -/
structure CommandHistory where
  entries : List HistoryEntry
  maxSize : Nat
  maxWords : Nat
deriving DecidableEq

/-- The word-budget trim performed at the top of CommandHistory.Add: when
the output has more than maxWords fields, keep the trailing maxWords words
joined by single spaces, otherwise keep the output unchanged. -/
def trimOutput (maxWords : Nat) (output : String) : String :=
  let words := goFields output
  if words.length > maxWords then goJoin " " (lastN maxWords words) else output

/-- CommandHistory.Add: trim the output to the word budget, append the new
entry, then keep only the most recent maxSize entries. -/
def CommandHistory.Add (h : CommandHistory) (command output : String) : CommandHistory :=
  let entry : HistoryEntry := ⟨command, trimOutput h.maxWords output⟩
  let entries := h.entries ++ [entry]
  let entries :=
    if entries.length > h.maxSize then entries.drop (entries.length - h.maxSize)
    else entries
  ⟨entries, h.maxSize, h.maxWords⟩

/-- The per-entry block emitted by GetContext for the entry at index i
(Sprintf with the COMMAND and OUTPUT labels, numbering from 1). -/
def renderEntry (i : Nat) (e : HistoryEntry) : String :=
  "\nCOMMAND " ++ toString (i + 1) ++ ": " ++ e.command ++
  "\nOUTPUT " ++ toString (i + 1) ++ ": " ++ e.output ++ "\n"

/-- CommandHistory.GetContext: empty string on empty history, otherwise a
header line followed by one COMMAND i / OUTPUT i block per entry, numbered
from 1 in insertion order. -/
def CommandHistory.GetContext (h : CommandHistory) : String :=
  if h.entries.length = 0 then ""
  else
    "\n\nRecent command history (for context):\n" ++
      String.join (h.entries.enum.map (fun p => renderEntry p.1 p.2))

/-- The entry that Add stores for a given bound and raw output. -/
def storedEntry (maxWords : Nat) (p : String × String) : HistoryEntry :=
  ⟨p.1, trimOutput maxWords p.2⟩

/-- A sequence of Add calls, oldest first. -/
def addAll (h : CommandHistory) (ops : List (String × String)) : CommandHistory :=
  ops.foldl (fun h p => h.Add p.1 p.2) h

/-- p is a prefix of s. -/
def startsWithL : List Char → List Char → Bool
  | _, [] => true
  | [], _ :: _ => false
  | c :: cs, p :: ps => c = p && startsWithL cs ps

/-- p occurs as a contiguous substring of s. -/
def containsSubL : List Char → List Char → Bool
  | [], p => p.isEmpty
  | c :: rest, p => startsWithL (c :: rest) p || containsSubL rest p

/-- pat occurs as a contiguous substring of s. -/
def containsStr (s pat : String) : Bool :=
  containsSubL s.data pat.data

/-- Decoded JSON values as produced by encoding/json into interface
values.  Go decodes every JSON number into float64; the only numbers this
tool reads back are integer token counts, so numbers are modeled as
integers. -/
inductive JSON where
  | null
  | bool (b : Bool)
  | num (n : Int)
  | str (s : String)
  | arr (elems : List JSON)
  | obj (fields : List (String × JSON))

/-- The chain of type assertions extracting choices[0].message.content:
result["choices"] must be a nonempty array, its first element an object,
its "message" field an object, and its "content" field a string. -/
def extractContent (result : List (String × JSON)) : Option String :=
  match result.lookup "choices" with
  | some (JSON.arr (choice :: _)) =>
    match choice with
    | JSON.obj choiceFields =>
      match choiceFields.lookup "message" with
      | some (JSON.obj messageFields) =>
        match messageFields.lookup "content" with
        | some (JSON.str text) => some text
        | _ => none
      | _ => none
    | _ => none
  | _ => none

/-- usage.prompt_tokens when present and numeric, else the zero default. -/
def extractPromptTokens (result : List (String × JSON)) : Int :=
  match result.lookup "usage" with
  | some (JSON.obj usageFields) =>
    match usageFields.lookup "prompt_tokens" with
    | some (JSON.num n) => n
    | _ => 0
  | _ => 0

/-- usage.completion_tokens when present and numeric, else zero. -/
def extractCompletionTokens (result : List (String × JSON)) : Int :=
  match result.lookup "usage" with
  | some (JSON.obj usageFields) =>
    match usageFields.lookup "completion_tokens" with
    | some (JSON.num n) => n
    | _ => 0
  | _ => 0

/-- One HTTP response from the completion endpoint: the numeric status
code, the status line text, the raw body bytes as a string, and the result
of running the JSON decoder on the body (none when decoding into a
string-keyed object fails). -/
structure APIResponse where
  statusCode : Nat
  status : String
  body : String
  decoded : Option (List (String × JSON))

/-- Outcome of getCommandSuggestion in the V2 source: either the trimmed
command plus token counts, or one of its three error returns. -/
inductive SuggestOutcome where
  | ok (command : String) (promptTokens completionTokens : Int)
  | errUpstream (status body : String)
  | errDecode
  | errNoValid (promptTokens completionTokens : Int)
deriving DecidableEq

/-- The non-success error text: Errorf with the status and body verbatim. -/
def upstreamMsg (status body : String) : String :=
  "error from OpenAI API: " ++ status ++ " - " ++ body

/-- Render the outcome error exactly as the Go errors print. -/
def SuggestOutcome.message : SuggestOutcome → Option String
  | .ok _ _ _ => none
  | .errUpstream st bd => some (upstreamMsg st bd)
  | .errDecode => some "json decode error"
  | .errNoValid _ _ => some "no valid response from OpenAI API"

/-- Response handling of getCommandSuggestion (V2): non-200 statuses fail
with the upstream error before any decoding; a body that does not decode
to an object fails; otherwise token usage is read and the first choice
content is extracted and whitespace-trimmed, or the no-valid-response
error is returned. -/
def processResponse (resp : APIResponse) : SuggestOutcome :=
  if resp.statusCode ≠ 200 then SuggestOutcome.errUpstream resp.status resp.body
  else
    match resp.decoded with
    | none => SuggestOutcome.errDecode
    | some result =>
      match extractContent result with
      | some text =>
        SuggestOutcome.ok (goTrimSpace text)
          (extractPromptTokens result) (extractCompletionTokens result)
      | none =>
        SuggestOutcome.errNoValid
          (extractPromptTokens result) (extractCompletionTokens result)

/-- A single apostrophe character, written via its code point. -/
def apos : String := String.singleton (Char.ofNat 39)

/-- The V2 prompt template text before the history placeholder. -/
def promptV2Pre : String :=
  "\nAlways adhere to these rules when suggesting the command:\n" ++
  "- The command must be a valid terminal command.\n" ++
  "- It should be relevant to the user" ++ apos ++ "s query.\n" ++
  "- Continue the conversation by giving useful commands.\n" ++
  "- Consider the chat history and make the command more useful than before based on the user" ++
  apos ++ "s follow up questions.\n" ++
  "- Use information from the chat history to help generate the command.\n" ++
  "- The command should not require user input.\n" ++
  "- It must not be destructive or modify the system in any harmful way.\n" ++
  "- The command should not require additional software, configuration, or access to external resources, the internet, or sensitive information.\n" ++
  "\nFormat your response as follows:\n" ++
  "- Only respond with the suggested command.\n" ++
  "- Ensure the command is executable in the current session.\n" ++
  "- Do not include any additional information or context.\n" ++
  "- Do not include any formattings.\n" ++
  "- Do not include " ++ apos ++ "dingus-aid" ++ apos ++ " in the command.\n" ++
  "\nThe command line history is as follows:\n" ++
  "\n<COMMAND_HISTORY> "

/-- The V2 template between the history and the query placeholders. -/
def promptV2Mid : String :=
  " </COMMAND_HISTORY>\n\nThe user query is as follows:\n\n<USER_QUESTION> "

/-- The V2 template after the query placeholder. -/
def promptV2Post : String :=
  " </USER_QUESTION>\n\nSuggested command:"

/-- Sprintf of the V2 template with the history context and the query. -/
def promptV2 (historyContext query : String) : String :=
  promptV2Pre ++ historyContext ++ promptV2Mid ++ query ++ promptV2Post

/-- ANSI escapes used by the output decoration. -/
def colorReset : String := "\x1b[0m"

def colorGreen : String := "\x1b[32m"

def colorBold : String := "\x1b[1m"

/-- Result of exec.Command("bash", "-c", command).CombinedOutput(): the
merged output stream and the rendered error of a non-zero exit (none on
success). -/
structure ShellResult where
  output : String
  err : Option String
deriving DecidableEq

/-- Observable outcome of one V2 invocation from the point where the
suggestion request is issued: the fatal log message if the process was
aborted, the command passed to the shell (if any), the text copied to the
clipboard (if any), the lines printed by the confirmation branch, the
final history state, the prompt sent to the API, and how many API calls
were made (the code has no retry loop, so this is always one). -/
structure MainResult where
  fatal : Option String
  executed : Option String
  copied : Option String
  confirmPrinted : List String
  history : CommandHistory
  sentPrompt : String
  apiCalls : Nat
deriving DecidableEq

/-- The V2 main flow: build the prompt from the current history context,
issue the single suggestion request, abort on any suggestion error;
otherwise normalize the confirmation line with ToLower then TrimSpace and
dispatch: "y" runs the command and records it in history (also when the
command itself failed), "c" copies to the clipboard and records nothing,
anything else records nothing and does nothing. -/
def mainV2 (h0 : CommandHistory) (query : String) (resp : APIResponse)
    (confirmRaw : String) (shell : ShellResult) (clipboardOk : Bool) : MainResult :=
  let prompt := promptV2 (CommandHistory.GetContext h0) query
  match processResponse resp with
  | SuggestOutcome.errUpstream st bd =>
    ⟨some ("Error getting command suggestion: " ++ upstreamMsg st bd),
      none, none, [], h0, prompt, 1⟩
  | SuggestOutcome.errDecode =>
    ⟨some "Error getting command suggestion: json decode error",
      none, none, [], h0, prompt, 1⟩
  | SuggestOutcome.errNoValid _ _ =>
    ⟨some "Error getting command suggestion: no valid response from OpenAI API",
      none, none, [], h0, prompt, 1⟩
  | SuggestOutcome.ok cmd _ _ =>
    let confirm := goTrimSpace (goToLower confirmRaw)
    if confirm = "y" then
      let msgs :=
        match shell.err with
        | some e =>
          ["Command returned error: " ++ e ++ "\n",
            "Output:\n" ++ shell.output ++ "\n"]
        | none =>
          ["\n" ++ colorBold ++ "Command output:" ++ colorReset ++ "\n" ++
            shell.output ++ "\n"]
      ⟨none, some cmd, none, msgs, h0.Add cmd shell.output, prompt, 1⟩
    else if confirm = "c" then
      ⟨none, none, some cmd,
        (if clipboardOk then
          [colorGreen ++ "Command copied to clipboard!" ++ colorReset ++ "\n\n"]
         else []) ++ ["Command not executed.\n"],
        h0, prompt, 1⟩
    else
      ⟨none, none, none, ["Command not executed.\n"], h0, prompt, 1⟩

/-- State of the config.json file as the loading code case-splits on it:
absent (os.Stat fails), present but unreadable (os.ReadFile fails),
present but not decodable into a string-to-string map (json.Unmarshal
fails; the raw content is carried for concreteness), or decoded into a
key-value map. -/
inductive ConfigFileState where
  | absent
  | unreadable (errMsg : String)
  | malformed (raw : String)
  | wellFormed (entries : List (String × String))
deriving DecidableEq

/-- The four possible returns of loadAPIKey: the key, the Errorf
"API key not found" value, a propagated read error, or a propagated
json.Unmarshal error. -/
inductive LoadResult where
  | key (s : String)
  | notFound
  | readError (e : String)
  | unmarshalError
deriving DecidableEq

/-- loadAPIKey: when the file exists, read it, decode it and look up
OPENAI_API_KEY; read and decode failures propagate their own errors; a
missing file or a decoded map without the key yields "API key not found".
The function is total: no input crashes it. -/
def loadAPIKey : ConfigFileState → LoadResult
  | ConfigFileState.absent => LoadResult.notFound
  | ConfigFileState.unreadable e => LoadResult.readError e
  | ConfigFileState.malformed _ => LoadResult.unmarshalError
  | ConfigFileState.wellFormed m =>
    match m.lookup "OPENAI_API_KEY" with
    | some k => LoadResult.key k
    | none => LoadResult.notFound

/-- saveAPIKey: marshal the one-key map and overwrite the file with it.
The JSON marshal/unmarshal round trip on a string map is the identity, so
the resulting file state decodes back to the same map. -/
def saveAPIKey (apiKey : String) : ConfigFileState :=
  ConfigFileState.wellFormed [("OPENAI_API_KEY", apiKey)]

/-- cleanupConfigFiles: os.RemoveAll of the config directory leaves the
config file absent regardless of its previous state (idempotent). -/
def cleanupConfigFiles (_ : ConfigFileState) : ConfigFileState :=
  ConfigFileState.absent

/-- V1 history entry: the user query and the shell output recorded after
an executed command. -/
structure Entry where
  query : String
  response : String
deriving DecidableEq

/-- The context loop of V1 getCommandSuggestion: concatenate
"User/Bot" lines for the entries from startIdx (the last five) on. -/
def rawContextV1 (history : List Entry) : String :=
  let startIdx := if history.length > 5 then history.length - 5 else 0
  String.join ((history.drop startIdx).map (fun e =>
    "User: " ++ e.query ++ "\nBot: " ++ e.response ++ "\n"))

/-- truncateHistoryContext: keep the context unchanged at up to 100 words,
otherwise join its trailing 100 words. -/
def truncateHistoryContext (context : String) : String :=
  let words := goFields context
  if words.length ≤ 100 then context
  else goJoin " " (lastN 100 words)

/-- The V1 prompt template before the history placeholder. -/
def promptV1Pre : String :=
  "\nHere is the history of the current CLI session:\n" ++
  "\n<HISTORY> "

/-- The V1 template between the history and the query placeholders. -/
def promptV1Mid : String :=
  " </HISTORY>\n" ++
  "\nAlways adhere to these rules when suggesting the command:\n" ++
  "- The command must be a valid terminal command.\n" ++
  "- It should be a continuation of the conversation.\n" ++
  "- It must be relevant to the user" ++ apos ++ "s query.\n" ++
  "- The command should not require user input.\n" ++
  "- It must not be destructive or modify the system in any harmful way.\n" ++
  "- Avoid duplicates of previous commands in this session.\n" ++
  "- The command should not require additional software, configuration, or access to external resources, the internet, or sensitive information.\n" ++
  "- The command should not reference user-specific files or data.\n" ++
  "\nFormat your response as follows:\n" ++
  "- Only respond with the suggested command.\n" ++
  "- Ensure the command is executable in the current session.\n" ++
  "- Do not include any additional information or context.\n" ++
  "- Do not include any formattings.\n" ++
  "\nThe user query is as follows:\n" ++
  "\n<USER_QUESTION> "

/-- The V1 template after the query placeholder. -/
def promptV1Post : String :=
  " </USER_QUESTION>\n\nSuggested command:"

/-- Sprintf of the V1 template with the (truncated) context and query. -/
def promptV1 (context query : String) : String :=
  promptV1Pre ++ context ++ promptV1Mid ++ query ++ promptV1Post

/-- Outcome of V1 getCommandSuggestion (it returns no token counts). -/
inductive SuggestOutcomeV1 where
  | ok (command : String)
  | errUpstream (status body : String)
  | errDecode
  | errNoValid
deriving DecidableEq

/-- Response handling of V1 getCommandSuggestion: identical case split to
the V2 version, without the usage extraction. -/
def processResponseV1 (resp : APIResponse) : SuggestOutcomeV1 :=
  if resp.statusCode ≠ 200 then SuggestOutcomeV1.errUpstream resp.status resp.body
  else
    match resp.decoded with
    | none => SuggestOutcomeV1.errDecode
    | some result =>
      match extractContent result with
      | some text => SuggestOutcomeV1.ok (goTrimSpace text)
      | none => SuggestOutcomeV1.errNoValid

/-- The V1 eviction loop in main: drop the front while more than five
entries remain. -/
def evictLoopV1 (l : List Entry) : List Entry :=
  if l.length > 5 then evictLoopV1 (l.drop 1) else l
termination_by l.length
decreasing_by simp [List.length_drop]; omega

/-- Observable outcome of one V1 invocation from the point where the
suggestion request is issued.  historyAtCall is the history value passed
to getCommandSuggestion. -/
structure MainV1Result where
  fatal : Option String
  executed : Option String
  copied : Option String
  historyAtCall : List Entry
  history : List Entry
  sentPrompt : String
  apiCalls : Nat
deriving DecidableEq

/-- The V1 main flow: the history list is freshly initialized empty, the
single suggestion request is issued with it, and only the "y" branch
appends an entry (the query paired with the shell output) afterwards,
then evicts down to five entries. -/
def mainV1 (query : String) (resp : APIResponse) (confirmRaw : String)
    (shell : ShellResult) : MainV1Result :=
  let history : List Entry := []
  let prompt := promptV1 (truncateHistoryContext (rawContextV1 history)) query
  match processResponseV1 resp with
  | SuggestOutcomeV1.errUpstream st bd =>
    ⟨some ("Error getting command suggestion: " ++ upstreamMsg st bd),
      none, none, history, history, prompt, 1⟩
  | SuggestOutcomeV1.errDecode =>
    ⟨some "Error getting command suggestion: json decode error",
      none, none, history, history, prompt, 1⟩
  | SuggestOutcomeV1.errNoValid =>
    ⟨some "Error getting command suggestion: no valid response from OpenAI API",
      none, none, history, history, prompt, 1⟩
  | SuggestOutcomeV1.ok cmd =>
    let confirm := goTrimSpace (goToLower confirmRaw)
    if confirm = "y" then
      ⟨none, some cmd, none, history,
        evictLoopV1 (history ++ [⟨query, shell.output⟩]), prompt, 1⟩
    else if confirm = "c" then
      ⟨none, none, some cmd, history, history, prompt, 1⟩
    else
      ⟨none, none, none, history, history, prompt, 1⟩

/-- The decoded body of the documentation sample response: one choice
whose message content is " ls -la ". -/
def sampleResult : List (String × JSON) :=
  [("choices", JSON.arr
    [JSON.obj [("message", JSON.obj [("content", JSON.str " ls -la ")])]])]

/-- A successful response carrying the sample body. -/
def resp200 : APIResponse := ⟨200, "200 OK", "", some sampleResult⟩

/-- A rate-limited response. -/
def resp429 : APIResponse :=
  ⟨429, "429 Too Many Requests", "rate limit exceeded", none⟩

/-- The initial state of the V2 global history tracker. -/
def emptyHistory8 : CommandHistory := ⟨[], 8, 160⟩

/-! ### Theorems -/

@[simp] theorem lastN_nil (n : Nat) : lastN n ([] : List α) = [] := by
  simp [lastN]

theorem lastN_of_le {n : Nat} {l : List α} (h : l.length ≤ n) : lastN n l = l := by
  unfold lastN
  have : l.length - n = 0 := Nat.sub_eq_zero_of_le h
  simp [this]

theorem lastN_length (n : Nat) (l : List α) : (lastN n l).length = min n l.length := by
  unfold lastN
  simp [List.length_drop]
  omega

theorem lastN_length_le (n : Nat) (l : List α) : (lastN n l).length ≤ n := by
  rw [lastN_length]; omega

theorem lastN_sublist (n : Nat) (l : List α) : ∀ a ∈ lastN n l, a ∈ l :=
  fun _ h => List.drop_subset _ l h

/-- Re-truncating after an append is the same as truncating once at the end:
the retained window only ever shrinks from the front. -/
theorem lastN_lastN_append (n : Nat) (l m : List α) :
    lastN n (lastN n l ++ m) = lastN n (l ++ m) := by
  unfold lastN
  rw [List.drop_append_eq_append_drop, List.drop_append_eq_append_drop, List.drop_drop]
  simp only [List.length_append, List.length_drop]
  congr 1
  · congr 1
    omega
  · congr 1
    omega

@[simp] theorem add_maxSize (h : CommandHistory) (c o : String) :
    (h.Add c o).maxSize = h.maxSize := rfl

@[simp] theorem add_maxWords (h : CommandHistory) (c o : String) :
    (h.Add c o).maxWords = h.maxWords := rfl

/-- The conditional truncation inside Add is exactly the lastN window. -/
theorem add_entries (h : CommandHistory) (c o : String) :
    (h.Add c o).entries =
      lastN h.maxSize (h.entries ++ [storedEntry h.maxWords (c, o)]) := by
  simp only [CommandHistory.Add, storedEntry, lastN]
  split
  · rfl
  · next hlen =>
    have h0 : (h.entries ++ [(⟨c, trimOutput h.maxWords o⟩ : HistoryEntry)]).length - h.maxSize = 0 := by
      simp only [List.length_append, List.length_cons, List.length_nil] at hlen ⊢
      omega
    rw [h0, List.drop_zero]

@[simp] theorem addAll_nil (h : CommandHistory) : addAll h [] = h := rfl

theorem addAll_cons (h : CommandHistory) (p : String × String) (ops : List (String × String)) :
    addAll h (p :: ops) = addAll (h.Add p.1 p.2) ops := rfl

/-- Invariant of the tracker: starting from any state whose entry list is
within its bound, any sequence of Add calls leaves exactly the lastN window
of the stored entries. -/
theorem addAll_entries (ops : List (String × String)) :
    ∀ h : CommandHistory, h.entries.length ≤ h.maxSize →
      (addAll h ops).entries =
        lastN h.maxSize (h.entries ++ ops.map (storedEntry h.maxWords)) := by
  induction ops with
  | nil =>
    intro h hle
    simp [lastN_of_le (by simpa using hle)]
  | cons p rest ih =>
    intro h hle
    rw [addAll_cons]
    have hsz : (h.Add p.1 p.2).entries.length ≤ (h.Add p.1 p.2).maxSize := by
      rw [add_entries, add_maxSize]
      exact lastN_length_le _ _
    have := ih (h.Add p.1 p.2) hsz
    rw [this, add_maxSize, add_maxWords, add_entries, lastN_lastN_append]
    simp [List.append_assoc]

/-- The V1 eviction loop computes the same trailing window: dropping the
front one entry at a time while more than five remain keeps exactly the
last five. -/
theorem evictLoopV1_eq_lastN (l : List Entry) : evictLoopV1 l = lastN 5 l := by
  by_cases h : l.length > 5
  case pos =>
    have ih := evictLoopV1_eq_lastN (l.drop 1)
    rw [evictLoopV1, if_pos h, ih]
    unfold lastN
    simp only [List.length_drop, List.drop_drop]
    congr 1
    omega
  case neg =>
    rw [evictLoopV1, if_neg h, lastN_of_le (by omega)]
termination_by l.length
decreasing_by simp [List.length_drop]; omega

/-- Claim C1: for every history tracker with bound N (and word budget W) and
every sequence of add calls starting from an empty history, the number of
retained entries never exceeds N, and the retained entries are exactly the
N most recently added ones in insertion order: the lastN window of the
stored (word-trimmed) entries.  Eviction therefore always drops the oldest
entries first.  The V1 eviction loop in main (bound hard-coded to 5)
computes the same trailing window. -/
theorem history_fifo_bound (N W : Nat) (ops : List (String × String)) :
    (addAll ⟨[], N, W⟩ ops).entries.length ≤ N ∧
    (addAll ⟨[], N, W⟩ ops).entries = lastN N (ops.map (storedEntry W)) ∧
    (∀ l : List Entry, evictLoopV1 l = lastN 5 l) := by
  have h := addAll_entries ops ⟨[], N, W⟩ (by simp)
  simp only [List.nil_append] at h
  exact ⟨by rw [h]; exact lastN_length_le _ _, h, evictLoopV1_eq_lastN⟩

theorem string_mk_data (s : String) : String.mk s.data = s := rfl

/-- Every word returned by fieldsAux is nonempty and free of whitespace,
provided the accumulator only holds non-space characters. -/
theorem fieldsAux_sound (l : List Char) :
    ∀ acc, (∀ c ∈ acc, goIsSpace c = false) →
      ∀ w ∈ fieldsAux acc l, w ≠ [] ∧ ∀ c ∈ w, goIsSpace c = false := by
  induction l with
  | nil =>
    intro acc hacc w hw
    simp only [fieldsAux] at hw
    split at hw
    · simp at hw
    · next hne =>
      simp only [List.mem_singleton] at hw
      subst hw
      refine ⟨by simpa using hne, fun c hc => hacc c (List.mem_reverse.mp hc)⟩
  | cons c cs ih =>
    intro acc hacc w hw
    simp only [fieldsAux] at hw
    by_cases hsp : goIsSpace c = true
    · rw [if_pos hsp] at hw
      by_cases hae : acc = []
      · rw [if_pos hae] at hw
        exact ih [] (by simp) w hw
      · rw [if_neg hae] at hw
        rcases List.mem_cons.mp hw with h1 | h2
        · subst h1
          exact ⟨by simpa using hae, fun d hd => hacc d (List.mem_reverse.mp hd)⟩
        · exact ih [] (by simp) w h2
    · rw [if_neg hsp] at hw
      refine ih (c :: acc) ?_ w hw
      intro d hd
      rcases List.mem_cons.mp hd with h1 | h2
      · subst h1; simpa using hsp
      · exact hacc d h2

theorem fieldsAux_cons (acc : List Char) (c : Char) (cs : List Char) :
    fieldsAux acc (c :: cs) =
      if goIsSpace c then
        if acc = [] then fieldsAux [] cs else acc.reverse :: fieldsAux [] cs
      else fieldsAux (c :: acc) cs := rfl

/-- Scanning a whitespace-free word just moves it into the accumulator. -/
theorem fieldsAux_word (w : List Char) :
    ∀ acc rest, (∀ c ∈ w, goIsSpace c = false) →
      fieldsAux acc (w ++ rest) = fieldsAux (w.reverse ++ acc) rest := by
  induction w with
  | nil => intro acc rest _; simp
  | cons c w' ih =>
    intro acc rest hw
    have hc : goIsSpace c = false := hw c (by simp)
    rw [List.cons_append, fieldsAux_cons, hc]
    simp only [Bool.false_eq_true, if_false]
    rw [ih (c :: acc) rest (fun d hd => hw d (List.mem_cons_of_mem _ hd))]
    simp [List.append_assoc]

/-- Scanning a space with a nonempty accumulator emits the pending word. -/
theorem fieldsAux_space (acc rest : List Char) (hacc : acc ≠ []) :
    fieldsAux acc (' ' :: rest) = acc.reverse :: fieldsAux [] rest := by
  have hsp : goIsSpace ' ' = true := rfl
  simp only [fieldsAux, hsp, if_true, if_neg hacc]

/-- Splitting a single-space join of nonempty whitespace-free words
recovers exactly those words. -/
theorem goFields_goJoin (ws : List String)
    (hws : ∀ w ∈ ws, w.data ≠ [] ∧ ∀ c ∈ w.data, goIsSpace c = false) :
    goFields (goJoin " " ws) = ws := by
  induction ws with
  | nil => rfl
  | cons w ws' ih =>
    cases ws' with
    | nil =>
      have hw := hws w (by simp)
      show (fieldsAux [] (goJoin " " [w]).data).map String.mk = [w]
      have : (goJoin " " [w]).data = w.data ++ [] := by simp [goJoin]
      rw [this, fieldsAux_word w.data [] [] hw.2]
      have hne : w.data.reverse ++ [] ≠ [] := by simpa using hw.1
      simp only [fieldsAux, if_neg hne]
      simp [string_mk_data]
    | cons w2 ws2 =>
      have hw := hws w (by simp)
      have hrest : ∀ u ∈ w2 :: ws2, u.data ≠ [] ∧ ∀ c ∈ u.data, goIsSpace c = false :=
        fun u hu => hws u (List.mem_cons_of_mem _ hu)
      show (fieldsAux [] (goJoin " " (w :: w2 :: ws2)).data).map String.mk = w :: w2 :: ws2
      have hdata : (goJoin " " (w :: w2 :: ws2)).data =
          w.data ++ (' ' :: (goJoin " " (w2 :: ws2)).data) := by
        show (w ++ " " ++ goJoin " " (w2 :: ws2)).data = _
        simp [String.data_append, List.append_assoc]
      rw [hdata, fieldsAux_word w.data [] (' ' :: (goJoin " " (w2 :: ws2)).data) hw.2,
        List.append_nil, fieldsAux_space _ _ (by simpa using hw.1)]
      simp only [List.map_cons, List.reverse_reverse, string_mk_data]
      exact congrArg (w :: ·) (ih hrest)

/-- Words extracted by goFields are nonempty and contain no whitespace. -/
theorem goFields_words_sound (s : String) :
    ∀ w ∈ goFields s, w.data ≠ [] ∧ ∀ c ∈ w.data, goIsSpace c = false := by
  intro w hw
  unfold goFields at hw
  rcases List.mem_map.mp hw with ⟨wl, hwl, rfl⟩
  have h := fieldsAux_sound s.data [] (by simp) wl hwl
  exact ⟨h.1, h.2⟩

/-- The words of the trimmed output are exactly the trailing window of the
words of the raw output. -/
theorem goFields_trimOutput (W : Nat) (o : String) :
    goFields (trimOutput W o) = lastN W (goFields o) := by
  show goFields (if (goFields o).length > W then goJoin " " (lastN W (goFields o)) else o) =
    lastN W (goFields o)
  split
  · next hgt =>
    exact goFields_goJoin _ (fun w hw => goFields_words_sound o w (lastN_sublist _ _ w hw))
  · next hle =>
    rw [lastN_of_le (by omega)]

/-- Claim C4: every stored response whose word count exceeds the word
budget W is kept truncated to its trailing W words (never its leading
ones); responses of at most W words are kept unchanged; and the context
rendering embeds the stored (trimmed) output verbatim.  Conjuncts: the
entry stored by Add carries trimOutput of the response; trimOutput keeps
the response unchanged at or below the budget and otherwise joins exactly
the trailing window; the words of the trimmed response are exactly the
trailing W words of the original; GetContext on a history holding such an
entry renders it verbatim. -/
theorem add_trims_trailing_words (h : CommandHistory) (c o : String) :
    (h.Add c o).entries =
      lastN h.maxSize (h.entries ++ [⟨c, trimOutput h.maxWords o⟩]) ∧
    trimOutput h.maxWords o =
      (if (goFields o).length > h.maxWords then goJoin " " (lastN h.maxWords (goFields o))
       else o) ∧
    goFields (trimOutput h.maxWords o) = lastN h.maxWords (goFields o) ∧
    CommandHistory.GetContext ⟨[⟨c, trimOutput h.maxWords o⟩], h.maxSize, h.maxWords⟩ =
      "\n\nRecent command history (for context):\n" ++
        renderEntry 0 ⟨c, trimOutput h.maxWords o⟩ := by
  refine ⟨add_entries h c o, rfl, goFields_trimOutput _ _, ?_⟩
  show "\n\nRecent command history (for context):\n" ++
      String.join [renderEntry 0 ⟨c, trimOutput h.maxWords o⟩] = _
  simp [String.join]

/-- Claim C5: a response with a non-success HTTP status makes the
suggestion client fail with the upstream error carrying the status and the
body verbatim; the invocation then aborts after its single API call with
no retry, no shell execution, no clipboard copy and no history entry. -/
theorem upstream_error_aborts (h0 : CommandHistory) (query : String)
    (resp : APIResponse) (confirmRaw : String) (shell : ShellResult)
    (clipboardOk : Bool) (hst : resp.statusCode ≠ 200) :
    processResponse resp = SuggestOutcome.errUpstream resp.status resp.body ∧
    (mainV2 h0 query resp confirmRaw shell clipboardOk).fatal =
      some ("Error getting command suggestion: " ++
        upstreamMsg resp.status resp.body) ∧
    (mainV2 h0 query resp confirmRaw shell clipboardOk).executed = none ∧
    (mainV2 h0 query resp confirmRaw shell clipboardOk).copied = none ∧
    (mainV2 h0 query resp confirmRaw shell clipboardOk).history = h0 ∧
    (mainV2 h0 query resp confirmRaw shell clipboardOk).apiCalls = 1 := by
  have hp : processResponse resp = SuggestOutcome.errUpstream resp.status resp.body := by
    unfold processResponse
    rw [if_pos hst]
  refine ⟨hp, ?_, ?_, ?_, ?_, ?_⟩ <;> simp [mainV2, hp]

theorem upstream_error_aborts_witness :
    processResponse resp429 =
      SuggestOutcome.errUpstream "429 Too Many Requests" "rate limit exceeded" ∧
    (mainV2 emptyHistory8 "list files" resp429 "y" ⟨"", none⟩ true).executed = none ∧
    (mainV2 emptyHistory8 "list files" resp429 "y" ⟨"", none⟩ true).history =
      emptyHistory8 := by
  have h := upstream_error_aborts emptyHistory8 "list files" resp429 "y"
    ⟨"", none⟩ true (by decide)
  exact ⟨h.1, h.2.2.1, h.2.2.2.2.1⟩

/-- Claim C6: when the executed suggested command exits non-zero, the
failure and the captured output are both reported to the user, the process
does not abort, and a history entry is recorded exactly as for a
successful run (the same Add of the command and its combined output). -/
theorem failed_command_recorded (h0 : CommandHistory) (query : String)
    (resp : APIResponse) (cmd : String) (pt ct : Int) (confirmRaw : String)
    (out e : String) (clipboardOk : Bool)
    (hok : processResponse resp = SuggestOutcome.ok cmd pt ct)
    (hy : goTrimSpace (goToLower confirmRaw) = "y") :
    (mainV2 h0 query resp confirmRaw ⟨out, some e⟩ clipboardOk).fatal = none ∧
    (mainV2 h0 query resp confirmRaw ⟨out, some e⟩ clipboardOk).executed = some cmd ∧
    (mainV2 h0 query resp confirmRaw ⟨out, some e⟩ clipboardOk).confirmPrinted =
      ["Command returned error: " ++ e ++ "\n", "Output:\n" ++ out ++ "\n"] ∧
    (mainV2 h0 query resp confirmRaw ⟨out, some e⟩ clipboardOk).history =
      h0.Add cmd out ∧
    (mainV2 h0 query resp confirmRaw ⟨out, some e⟩ clipboardOk).history =
      (mainV2 h0 query resp confirmRaw ⟨out, none⟩ clipboardOk).history := by
  refine ⟨?_, ?_, ?_, ?_, ?_⟩ <;> simp [mainV2, hok, hy]

theorem failed_command_recorded_witness :
    (mainV2 emptyHistory8 "list files" resp200 "y"
      ⟨"boom", some "exit status 1"⟩ true).executed = some "ls -la" ∧
    (mainV2 emptyHistory8 "list files" resp200 "y"
      ⟨"boom", some "exit status 1"⟩ true).history =
      emptyHistory8.Add "ls -la" "boom" := by
  have h := failed_command_recorded emptyHistory8 "list files" resp200
    "ls -la" 0 0 "y" "boom" "exit status 1" true (by decide) (by decide)
  exact ⟨h.2.1, h.2.2.2.1⟩

/-- Claim C7: on a successful (status 200, decodable) response the client
returns the first choice message content with surrounding whitespace
trimmed when the JSON has the expected shape, and fails with the
no-valid-response error when it lacks it; on the documented sample body
the extracted command is "ls -la". -/
theorem success_extracts_trimmed (resp : APIResponse)
    (result : List (String × JSON)) (h200 : resp.statusCode = 200)
    (hdec : resp.decoded = some result) :
    (∀ t, extractContent result = some t →
      processResponse resp =
        SuggestOutcome.ok (goTrimSpace t) (extractPromptTokens result)
          (extractCompletionTokens result)) ∧
    (extractContent result = none →
      processResponse resp =
        SuggestOutcome.errNoValid (extractPromptTokens result)
          (extractCompletionTokens result)) ∧
    extractContent sampleResult = some " ls -la " ∧
    goTrimSpace " ls -la " = "ls -la" := by
  refine ⟨?_, ?_, by decide, by decide⟩
  · intro t ht
    simp [processResponse, h200, hdec, ht]
  · intro hnone
    simp [processResponse, h200, hdec, hnone]

theorem success_extracts_trimmed_witness :
    processResponse resp200 = SuggestOutcome.ok "ls -la" 0 0 := by
  have h := success_extracts_trimmed resp200 sampleResult rfl rfl
  have h2 := h.1 " ls -la " (by decide)
  exact h2.trans (by decide)

/-- Claim C2 (amended): the confirmation dispatch happens on the input
line after ToLower and TrimSpace normalization.  When the normalized line
is "y" the command is executed and exactly one entry is appended to the
history (then bounded by maxSize); when it is "c" the command is copied
to the clipboard and the history is unchanged; for every other normalized
line nothing is executed, copied or recorded. -/
theorem confirm_dispatch (h0 : CommandHistory) (query : String)
    (resp : APIResponse) (cmd : String) (pt ct : Int) (confirmRaw : String)
    (shell : ShellResult) (clipboardOk : Bool)
    (hok : processResponse resp = SuggestOutcome.ok cmd pt ct) :
    (goTrimSpace (goToLower confirmRaw) = "y" →
      (mainV2 h0 query resp confirmRaw shell clipboardOk).executed = some cmd ∧
      (mainV2 h0 query resp confirmRaw shell clipboardOk).copied = none ∧
      (mainV2 h0 query resp confirmRaw shell clipboardOk).history =
        h0.Add cmd shell.output ∧
      (mainV2 h0 query resp confirmRaw shell clipboardOk).history.entries =
        lastN h0.maxSize
          (h0.entries ++ [⟨cmd, trimOutput h0.maxWords shell.output⟩])) ∧
    (goTrimSpace (goToLower confirmRaw) = "c" →
      (mainV2 h0 query resp confirmRaw shell clipboardOk).copied = some cmd ∧
      (mainV2 h0 query resp confirmRaw shell clipboardOk).executed = none ∧
      (mainV2 h0 query resp confirmRaw shell clipboardOk).history = h0) ∧
    (goTrimSpace (goToLower confirmRaw) ≠ "y" →
      goTrimSpace (goToLower confirmRaw) ≠ "c" →
      (mainV2 h0 query resp confirmRaw shell clipboardOk).executed = none ∧
      (mainV2 h0 query resp confirmRaw shell clipboardOk).copied = none ∧
      (mainV2 h0 query resp confirmRaw shell clipboardOk).history = h0) := by
  refine ⟨?_, ?_, ?_⟩
  · intro hy
    refine ⟨?_, ?_, ?_, ?_⟩ <;> simp [mainV2, hok, hy]
    exact add_entries h0 cmd shell.output
  · intro hc
    refine ⟨?_, ?_, ?_⟩ <;> simp [mainV2, hok, hc]
  · intro h1 h2
    refine ⟨?_, ?_, ?_⟩ <;> simp [mainV2, hok, h1, h2]

theorem confirm_dispatch_witness :
    (mainV2 emptyHistory8 "list files" resp200 "n" ⟨"", none⟩ true).executed = none ∧
    (mainV2 emptyHistory8 "list files" resp200 "n" ⟨"", none⟩ true).copied = none ∧
    (mainV2 emptyHistory8 "list files" resp200 "n" ⟨"", none⟩ true).history =
      emptyHistory8 := by
  have h := confirm_dispatch emptyHistory8 "list files" resp200 "ls -la" 0 0
    "n" ⟨"", none⟩ true (by decide)
  exact h.2.2 (by decide) (by decide)

/-- Counterexample to claim C2 as stated: the raw input "Y" is neither
"y" nor "c", yet it triggers execution and appends one history entry,
because the code lowercases the line before dispatching. -/
theorem confirm_uppercase_executes_cex :
    (mainV2 emptyHistory8 "list files" resp200 "Y"
      ⟨"file1\nfile2\n", none⟩ true).executed = some "ls -la" ∧
    (mainV2 emptyHistory8 "list files" resp200 "Y"
      ⟨"file1\nfile2\n", none⟩ true).history.entries.length = 1 ∧
    decide ("Y" = "y") = false ∧ decide ("Y" = "c") = false := by decide

set_option maxRecDepth 40000 in
/-- Claim C3 (amended): GetContext on an empty history returns the empty
string, so the prompt contains no "Recent command history" label; however
the prompt template itself always carries the COMMAND_HISTORY markers, so
the prompt built from the empty context still contains an empty
history tag between them. -/
theorem empty_history_prompt (n w : Nat) (q : String) :
    CommandHistory.GetContext ⟨[], n, w⟩ = "" ∧
    promptV2 (CommandHistory.GetContext ⟨[], n, w⟩) q =
      (promptV2Pre ++ promptV2Mid) ++ q ++ promptV2Post ∧
    containsStr (promptV2Pre ++ promptV2Mid)
      "<COMMAND_HISTORY>  </COMMAND_HISTORY>" = true ∧
    containsStr (promptV2Pre ++ promptV2Mid) "Recent command history" = false ∧
    containsStr promptV2Post "Recent command history" = false := by
  refine ⟨rfl, ?_, by decide, by decide, by decide⟩
  show promptV2 "" q = (promptV2Pre ++ promptV2Mid) ++ q ++ promptV2Post
  simp only [promptV2, String.append_empty]

set_option maxRecDepth 40000 in
/-- Counterexample to claim C3 as stated: the prompt built from the empty
history context does contain the history section marker. -/
theorem empty_history_prompt_cex :
    containsStr (promptV2 (CommandHistory.GetContext ⟨[], 8, 160⟩) "list files")
      "<COMMAND_HISTORY>" = true := by decide

/-- Claim C8 (amended): loading from an absent config file yields the
NotFound result; loading a file with malformed content propagates the
JSON unmarshal error instead of NotFound; in both cases no credential is
returned and loadAPIKey returns an error value rather than crashing. -/
theorem load_absent_malformed (raw : String) :
    loadAPIKey ConfigFileState.absent = LoadResult.notFound ∧
    loadAPIKey (ConfigFileState.malformed raw) = LoadResult.unmarshalError := ⟨rfl, rfl⟩

/-- Counterexample to claim C8 as stated: on a malformed file the load
result is the unmarshal error, not the NotFound result. -/
theorem load_malformed_cex :
    decide (loadAPIKey (ConfigFileState.malformed "not json") =
      LoadResult.notFound) = false := by decide

/-- Claim C9: for every credential string, load after save returns that
same credential, and load after erase returns NotFound. -/
theorem config_round_trip (cred : String) (fs : ConfigFileState) :
    loadAPIKey (saveAPIKey cred) = LoadResult.key cred ∧
    loadAPIKey (cleanupConfigFiles fs) = LoadResult.notFound := by
  constructor
  · show loadAPIKey (ConfigFileState.wellFormed [("OPENAI_API_KEY", cred)]) = _
    simp [loadAPIKey, List.lookup]
  · rfl

/-- Every branch of mainV1 calls the API once with the empty fresh
history and therefore sends the empty-context prompt. -/
theorem mainV1_proj (query : String) (resp : APIResponse) (confirmRaw : String)
    (shell : ShellResult) :
    (mainV1 query resp confirmRaw shell).historyAtCall = [] ∧
    (mainV1 query resp confirmRaw shell).sentPrompt =
      promptV1 (truncateHistoryContext (rawContextV1 [])) query ∧
    (mainV1 query resp confirmRaw shell).apiCalls = 1 := by
  simp only [mainV1]
  cases hp : processResponseV1 resp <;>
    split_ifs <;> exact ⟨rfl, rfl, rfl⟩

/-- Claim C10: in the V1 variant the history list is freshly initialized
empty and only appended to after the single suggestion request, so
getCommandSuggestion is always called with an empty history and the
prompt it sends is a function of the query alone (the empty-context
prompt). -/
theorem v1_fresh_empty_history (query : String) (resp : APIResponse)
    (confirmRaw : String) (shell : ShellResult) :
    (mainV1 query resp confirmRaw shell).historyAtCall = [] ∧
    rawContextV1 [] = "" ∧
    truncateHistoryContext "" = "" ∧
    (mainV1 query resp confirmRaw shell).sentPrompt = promptV1 "" query ∧
    (mainV1 query resp confirmRaw shell).apiCalls = 1 := by
  have h := mainV1_proj query resp confirmRaw shell
  exact ⟨h.1, rfl, rfl, h.2.1, h.2.2⟩

